import Mathlib

/-!
# Verification of the Decentralized-Science paper lifecycle core

A shallow embedding of the paper submission & review lifecycle of the
Decentralized-Science repository, together with proofs about it.

Embedded source:
* `server/storage.ts` — the `MemStorage` in-memory repository (users,
  papers, reviews, token ledger) with its seeded demo data;
* `server/services/openai.ts` — `splitTextIntoChunks`,
  `analyzePaperContent`, `analyzeSingleChunk` (the language-model call is
  modelled as an oracle parameter mapping the user-message content to the
  parsed analysis object);
* `server/services/blockchain.ts` — `verifySignature` (the cryptographic
  address recovery of `ethers.verifyMessage` is modelled as an oracle
  returning either a recovered address or an error);
* `server/routes.ts` — the `POST /api/papers` handler.

JavaScript `Map`s are modelled as lists in insertion order (ids are
assigned from strictly increasing counters and entries are never deleted,
so insertion order coincides with id order, as in the V8 `Map`).
JavaScript `Date` timestamps are modelled as natural numbers passed in as
a `now` parameter; no verified property depends on their values.
-/

namespace DeSci

/-- The parsed four-field analysis object returned by the language model
(`openai.ts`: keys `plagiarismCheck`, `referenceVerification`,
`contentSummary`, `qualityRating`). -/
structure Analysis where
  plagiarismCheck : String
  referenceVerification : String
  contentSummary : String
  qualityRating : Int
deriving Repr, DecidableEq

/-- A user row (`shared/schema.ts` table `users`). -/
structure User where
  id : Nat
  username : String
  password : String
  walletAddress : Option String
  institution : Option String
  bio : Option String
  profileImage : Option String
  tokenBalance : Int
deriving Repr, DecidableEq

/-- A paper row (`shared/schema.ts` table `papers`). -/
structure Paper where
  id : Nat
  title : String
  abstract : String
  authorId : Nat
  ipfsCid : String
  metadataHash : Option String
  status : String
  createdAt : Nat
  tags : List String
  viewCount : Nat
  tokenCount : Int
  aiVerified : Bool
  aiAnalysis : Option Analysis
deriving Repr, DecidableEq

/-- A review row (`shared/schema.ts` table `reviews`). -/
structure Review where
  id : Nat
  paperId : Nat
  reviewerId : Nat
  content : String
  rating : Int
  ipfsCid : Option String
  txHash : Option String
  createdAt : Nat
deriving Repr, DecidableEq

/-- A token-ledger row (`shared/schema.ts` table `tokens`). -/
structure Token where
  id : Nat
  userId : Nat
  amount : Int
  reason : String
  txHash : Option String
  createdAt : Nat
deriving Repr, DecidableEq

/-- The `MemStorage` state: the four entity maps (as lists in insertion
order) and the four id counters. -/
structure Storage where
  users : List User
  papers : List Paper
  reviews : List Review
  tokens : List Token
  userIdCounter : Nat
  paperIdCounter : Nat
  reviewIdCounter : Nat
  tokenIdCounter : Nat
deriving Repr, DecidableEq

/-- Insert payload for `createUser` (`insertUserSchema`). -/
structure InsertUser where
  username : String
  password : String
  walletAddress : Option String
  institution : Option String
  bio : Option String
  profileImage : Option String
deriving Repr, DecidableEq

/-- Insert payload for `createPaper` (`insertPaperSchema`). -/
structure InsertPaper where
  title : String
  abstract : String
  authorId : Nat
  ipfsCid : String
  metadataHash : Option String
  tags : List String
deriving Repr, DecidableEq

/-- Insert payload for `createReview` (`insertReviewSchema`). -/
structure InsertReview where
  paperId : Nat
  reviewerId : Nat
  content : String
  rating : Int
  ipfsCid : Option String
  txHash : Option String
deriving Repr, DecidableEq

/-- JavaScript `String.prototype.includes`: substring containment. -/
def jsIncludes (s sub : String) : Bool :=
  decide (List.IsInfix sub.data s.data)

/-- `MemStorage.getUser`: `this.users.get(id)`. -/
def getUser (s : Storage) (id : Nat) : Option User :=
  s.users.find? (fun u => u.id == id)

/-- `MemStorage.getPaper`: `this.papers.get(id)`. -/
def getPaper (s : Storage) (id : Nat) : Option Paper :=
  s.papers.find? (fun p => p.id == id)

/-- `MemStorage.getUserByWalletAddress`: first user whose `walletAddress`
strictly equals the argument. -/
def getUserByWalletAddress (s : Storage) (w : String) : Option User :=
  s.users.find? (fun u => u.walletAddress == some w)

/-- `MemStorage.getReviewCountForPaper`: number of reviews whose
`paperId` matches. -/
def getReviewCountForPaper (s : Storage) (paperId : Nat) : Nat :=
  (s.reviews.filter (fun r => r.paperId == paperId)).length

/-- `MemStorage.createUser`: next id from the counter, token balance 0. -/
def createUser (s : Storage) (iu : InsertUser) : User × Storage :=
  let id := s.userIdCounter
  let user : User :=
    { id := id, username := iu.username, password := iu.password,
      walletAddress := iu.walletAddress, institution := iu.institution,
      bio := iu.bio, profileImage := iu.profileImage, tokenBalance := 0 }
  (user, { s with users := s.users ++ [user], userIdCounter := id + 1 })

/-- `MemStorage.awardTokens`: append a ledger entry, bump the recipient's
cached balance when the recipient exists, and — when the reason text
contains `"review"` — bump the cached `tokenCount` of the paper targeted
by the recipient's most recently created review, when there is one and
that paper exists. -/
def awardTokens (s : Storage) (userId : Nat) (amount : Int) (reason : String)
    (now : Nat) : Token × Storage :=
  let id := s.tokenIdCounter
  let token : Token :=
    { id := id, userId := userId, amount := amount, reason := reason,
      txHash := none, createdAt := now }
  let s1 : Storage :=
    { s with
      tokens := s.tokens ++ [token],
      users := s.users.map (fun u =>
        if u.id = userId
        then { u with tokenBalance := u.tokenBalance + amount }
        else u),
      tokenIdCounter := id + 1 }
  let s2 : Storage :=
    if jsIncludes reason "review" then
      let reviewerPapers :=
        (s1.reviews.filter (fun r => r.reviewerId == userId)).map
          (fun r => r.paperId)
      match reviewerPapers.getLast? with
      | some pid =>
          { s1 with papers := s1.papers.map (fun p =>
              if p.id = pid
              then { p with tokenCount := p.tokenCount + amount }
              else p) }
      | none => s1
    else s1
  (token, s2)

/-- `MemStorage.createPaper`: next id, status `"submitted"`, zeroed
counters, unverified, no analysis; then a 3-token "Paper submission"
award to the author. -/
def createPaper (s : Storage) (ip : InsertPaper) (now : Nat) : Paper × Storage :=
  let id := s.paperIdCounter
  let paper : Paper :=
    { id := id, title := ip.title, abstract := ip.abstract,
      authorId := ip.authorId, ipfsCid := ip.ipfsCid,
      metadataHash := ip.metadataHash, status := "submitted",
      createdAt := now, tags := ip.tags, viewCount := 0, tokenCount := 0,
      aiVerified := false, aiAnalysis := none }
  let s1 : Storage :=
    { s with papers := s.papers ++ [paper], paperIdCounter := id + 1 }
  let s2 := (awardTokens s1 ip.authorId 3 "Paper submission" now).2
  (paper, s2)

/-- `MemStorage.createReview`: next id; after insertion, when the target
paper exists and now has at least 2 reviews, its status becomes
`"reviewed"`. -/
def createReview (s : Storage) (ir : InsertReview) (now : Nat) :
    Review × Storage :=
  let id := s.reviewIdCounter
  let review : Review :=
    { id := id, paperId := ir.paperId, reviewerId := ir.reviewerId,
      content := ir.content, rating := ir.rating, ipfsCid := ir.ipfsCid,
      txHash := ir.txHash, createdAt := now }
  let s1 : Storage :=
    { s with reviews := s.reviews ++ [review], reviewIdCounter := id + 1 }
  let s2 : Storage :=
    match getPaper s1 ir.paperId with
    | some paper =>
        if getReviewCountForPaper s1 paper.id ≥ 2 then
          { s1 with papers := s1.papers.map (fun p =>
              if p.id = paper.id
              then { p with status := "reviewed" } else p) }
        else s1
    | none => s1
  (review, s2)

/-- `MemStorage.updatePaperStatus`: targeted mutation returning a success
boolean; `false` exactly when the paper does not exist. -/
def updatePaperStatus (s : Storage) (id : Nat) (status : String) :
    Bool × Storage :=
  match getPaper s id with
  | some _ =>
      (true, { s with papers := s.papers.map (fun p =>
          if p.id = id then { p with status := status } else p) })
  | none => (false, s)

/-- `MemStorage.updatePaperAIVerified`. -/
def updatePaperAIVerified (s : Storage) (id : Nat) (verified : Bool) :
    Bool × Storage :=
  match getPaper s id with
  | some _ =>
      (true, { s with papers := s.papers.map (fun p =>
          if p.id = id then { p with aiVerified := verified } else p) })
  | none => (false, s)

/-- `MemStorage.updatePaperAIAnalysis`. -/
def updatePaperAIAnalysis (s : Storage) (id : Nat) (analysis : Option Analysis) :
    Bool × Storage :=
  match getPaper s id with
  | some _ =>
      (true, { s with papers := s.papers.map (fun p =>
          if p.id = id then { p with aiAnalysis := analysis } else p) })
  | none => (false, s)

/-- `MemStorage.incrementPaperViews`. -/
def incrementPaperViews (s : Storage) (id : Nat) : Bool × Storage :=
  match getPaper s id with
  | some _ =>
      (true, { s with papers := s.papers.map (fun p =>
          if p.id = id then { p with viewCount := p.viewCount + 1 } else p) })
  | none => (false, s)

/-! ## Text chunking (`openai.ts`, `splitTextIntoChunks`)

The JavaScript works on strings; we work on the underlying character
lists (`String.data`) so that everything computes structurally.
`text.split(/\n\n+/)` splits the text on maximal runs of at least two
newline characters. -/

/-- One pass of `text.split(/\n\n+/)`: `acc` holds the current component
reversed, `n` counts newline characters seen but not yet committed (a run
of `n ≥ 2` is a separator; a single newline is ordinary content). -/
def splitParasGo : List Char → List Char → Nat → List (List Char)
  | [], acc, n =>
      if n ≥ 2 then [acc.reverse, []]
      else [acc.reverse ++ List.replicate n '\n']
  | c :: rest, acc, n =>
      if c = '\n' then splitParasGo rest acc (n + 1)
      else if n ≥ 2 then acc.reverse :: splitParasGo rest [c] 0
      else splitParasGo rest (c :: (List.replicate n '\n' ++ acc)) 0

/-- `text.split(/\n\n+/)` on character lists. -/
def splitParas (text : List Char) : List (List Char) :=
  splitParasGo text [] 0

/-- The accumulation loop of `splitTextIntoChunks`: `chunks` is the list
built so far, `curr` is `currentChunk`.  A paragraph starts a new chunk
when it does not fit and the current chunk is non-empty; otherwise it is
appended to the current chunk behind a `"\n\n"` separator (omitted while
the current chunk is empty).  The final non-empty `currentChunk` is
pushed. -/
def chunkGo (maxSize : Nat) :
    List (List Char) → List (List Char) → List Char → List (List Char)
  | [], chunks, curr => if curr ≠ [] then chunks ++ [curr] else chunks
  | p :: ps, chunks, curr =>
      if curr.length + p.length > maxSize ∧ curr.length > 0 then
        chunkGo maxSize ps (chunks ++ [curr]) p
      else
        chunkGo maxSize ps chunks
          (curr ++ (if curr ≠ [] then ['\n', '\n'] else []) ++ p)

/-- `splitTextIntoChunks(text, maxSize)` from `openai.ts`. -/
def splitTextIntoChunks (text : String) (maxSize : Nat) : List String :=
  (chunkGo maxSize (splitParas text.data) [] []).map String.mk

/-- Joining a list of chunks with the `"\n\n"` paragraph separator
(the inverse direction of the chunker). -/
def joinChunks : List (List Char) → List Char
  | [] => []
  | [c] => c
  | c :: cs => c ++ ['\n', '\n'] ++ joinChunks cs

/-! ## Signature verification (`blockchain.ts`, `verifySignature`)

`ethers.verifyMessage` is an external cryptographic primitive; it is
modelled as an oracle `recover` that either returns the recovered address
or throws (modelled as `Except.error`). -/

/-- `verifySignature(message, signature, address)`: recover the signer
address and compare case-insensitively; any recovery error yields
`false`. -/
def verifySignature (recover : String → String → Except String String)
    (message signature address : String) : Bool :=
  match recover message signature with
  | Except.ok recoveredAddress => recoveredAddress.toLower == address.toLower
  | Except.error _ => false

/-! ## AI analysis (`openai.ts`, `analyzeSingleChunk` / `analyzePaperContent`)

The chat-completion call is modelled as an oracle mapping the user-message
content to the parsed four-field analysis object.  The `OPENAI_API_KEY`
guard, rate-limiting sleeps, and the top-level try/catch (which converts
any thrown error into a `null` result) are environment effects outside
the state transition being verified; the IPFS body retrieval is modelled
by taking the resolved `content` (full body, or the abstract as the
documented fallback) as a parameter. -/

/-- The user message sent by `analyzeSingleChunk`. -/
def singleChunkMessage (title content : String) : String :=
  "Title: " ++ title ++ "\n\nContent: " ++ content

/-- The abstract-only content used for the preliminary pass of the
multi-chunk path. -/
def abstractOnlyContent (abstract : String) : String :=
  abstract ++
    "\n\nNote: This is just the abstract. The full paper is very large and being analyzed separately."

/-- The reward reason used on AI verification. -/
def hqReason : String := "High-quality paper verified by AI"

/-- The promotion block shared by `analyzeSingleChunk` (rating ≥ 7) and
the multi-chunk path of `analyzePaperContent` (rating ≥ 6): set status
`"verified"`, set `aiVerified`, and award 10 tokens to the author of the
paper when it exists. -/
def promoteVerified (s : Storage) (paperId : Nat) (now : Nat) : Storage :=
  let s1 := (updatePaperStatus s paperId "verified").2
  let s2 := (updatePaperAIVerified s1 paperId true).2
  match getPaper s2 paperId with
  | some paper => (awardTokens s2 paper.authorId 10 hqReason now).2
  | none => s2

/-- `analyzeSingleChunk(paperId, title, content)`: one model call; on a
quality rating ≥ 7 the promotion side effects fire. -/
def analyzeSingleChunk (oracle : String → Analysis) (s : Storage)
    (paperId : Nat) (title content : String) (now : Nat) :
    Analysis × Storage :=
  let analysis := oracle (singleChunkMessage title content)
  if analysis.qualityRating ≥ 7 then (analysis, promoteVerified s paperId now)
  else (analysis, s)

/-- The chunk selected as "introduction excerpt": the first chunk whose
lower-cased text contains `"introduction"` or `"background"`; `""` when
none matches. -/
def findIntroduction (chunks : List String) : String :=
  match chunks.find? (fun c =>
      jsIncludes c.toLower "introduction" || jsIncludes c.toLower "background") with
  | some c => c
  | none => ""

/-- The chunk selected as "conclusion excerpt": the last chunk whose
lower-cased text contains `"conclusion"`, `"discussion"` or `"summary"`;
`""` when none matches. -/
def findConclusion (chunks : List String) : String :=
  match chunks.reverse.find? (fun c =>
      jsIncludes c.toLower "conclusion" || jsIncludes c.toLower "discussion" ||
      jsIncludes c.toLower "summary") with
  | some c => c
  | none => ""

/-- The representative sample assembled for the multi-chunk model call. -/
def representativeSample (title abstract : String) (chunks : List String) :
    String :=
  let introduction := findIntroduction chunks
  let conclusion := findConclusion chunks
  "Title: " ++ title ++ "\n    \nAbstract: " ++ abstract ++ "\n\n" ++
    (if introduction ≠ "" then "Introduction excerpt:\n" ++ introduction else "") ++
    "\n\n" ++
    (if conclusion ≠ "" then "Conclusion excerpt:\n" ++ conclusion else "") ++
    "\n\nNote: This is a sample of a large paper. The full text was too large to analyze in one request."

/-- The `MAX_CHUNK_SIZE` constant of `analyzePaperContent`. -/
def MAX_CHUNK_SIZE : Nat := 10000

/-- `analyzePaperContent(paperId, ipfsCid, title, abstract)` with the
IPFS-resolved body passed as `content`: single-chunk bodies go through
`analyzeSingleChunk`; larger bodies get a preliminary abstract-only
`analyzeSingleChunk` pass and then one sampled model call whose rating is
promoted at the lower threshold ≥ 6. -/
def analyzePaperContent (oracle : String → Analysis) (s : Storage)
    (paperId : Nat) (title content abstract : String) (now : Nat) :
    Option Analysis × Storage :=
  let contentChunks := splitTextIntoChunks content MAX_CHUNK_SIZE
  if contentChunks.length = 1 then
    let r := analyzeSingleChunk oracle s paperId title content now
    (some r.1, r.2)
  else
    let s1 := (analyzeSingleChunk oracle s paperId title
      (abstractOnlyContent abstract) now).2
    let analysis := oracle (representativeSample title abstract contentChunks)
    if analysis.qualityRating ≥ 6 then
      (some analysis, promoteVerified s1 paperId now)
    else (some analysis, s1)

/-! ## The `POST /api/papers` handler (`routes.ts`) -/

/-- Request body of `POST /api/papers` after JSON parsing. -/
structure PaperRequest where
  title : String
  abstract : String
  ipfsCid : String
  metadataHash : Option String
  tags : Option (List String)
  walletAddress : String
  signature : Option String
deriving Repr, DecidableEq

/-- Responses the `POST /api/papers` handler can produce (the background
analysis task is dispatched after the response and is not part of it). -/
inductive PapersResponse where
  | badRequest
  | invalidSignature
  | created (paper : Paper)
  | serverError
deriving Repr, DecidableEq

/-- JavaScript truthiness of an optional string field: `undefined`/`null`
and the empty string are falsy. -/
def jsTruthy : Option String → Bool
  | none => false
  | some s => s ≠ ""

/-- The canonical submission message signed by the client and re-built by
the server. -/
def submissionMessage (title ipfsCid : String) : String :=
  "I am submitting my research paper \"" ++ title ++ "\" with IPFS CID " ++ ipfsCid

/-- The `POST /api/papers` handler: validate (the zod schema's
`walletAddress: min(1)` and the redundant `!walletAddress` guard both
reject exactly the empty wallet address on this typed request), resolve
or create the user, verify the signature only when one is (truthily)
supplied, and create the paper.  `username` stands for the randomly
generated `researcher_<n>` name. -/
def postPapers (recover : String → String → Except String String)
    (s : Storage) (req : PaperRequest) (username : String) (now : Nat) :
    PapersResponse × Storage :=
  if req.walletAddress = "" then (PapersResponse.badRequest, s)
  else
    let resolved : User × Storage :=
      match getUserByWalletAddress s req.walletAddress with
      | some u => (u, s)
      | none =>
          createUser s
            { username := username, password := "wallet_auth",
              walletAddress := some req.walletAddress, institution := none,
              bio := none, profileImage := none }
    let user := resolved.1
    let s1 := resolved.2
    if jsTruthy req.signature ∧
        verifySignature recover
          (submissionMessage req.title req.ipfsCid)
          (req.signature.getD "") req.walletAddress = false then
      (PapersResponse.invalidSignature, s1)
    else if user.id = 0 then (PapersResponse.serverError, s1)
    else
      let r := createPaper s1
        { title := req.title, abstract := req.abstract, authorId := user.id,
          ipfsCid := req.ipfsCid, metadataHash := req.metadataHash,
          tags := req.tags.getD [] } now
      (PapersResponse.created r.1, r.2)

/-! ## The `MemStorage` constructor and `seedInitialData`

The constructor starts all four maps empty with all counters at 1 and
then runs `seedInitialData`, which inserts three users (with hand-set
token balances), three papers, five reviews, **no** token-ledger entries,
and finally sets `tokenIdCounter = 100`.  `Date` literals are encoded as
`YYYYMMDD` numbers. -/

/-- The storage state before seeding (all maps empty, counters 1). -/
def emptyStorage : Storage :=
  { users := [], papers := [], reviews := [], tokens := [],
    userIdCounter := 1, paperIdCounter := 1, reviewIdCounter := 1,
    tokenIdCounter := 1 }

/-- Seeded user `researcher_1`. -/
def seedUser1 : User :=
  { id := 1, username := "researcher_1", password := "wallet_auth",
    walletAddress := some "0x123abc...", institution := some "MIT Quantum Lab",
    bio := some "Quantum computing researcher", profileImage := none,
    tokenBalance := 45 }

/-- Seeded user `researcher_2`. -/
def seedUser2 : User :=
  { id := 2, username := "researcher_2", password := "wallet_auth",
    walletAddress := some "0x456def...",
    institution := some "Stanford Medical School",
    bio := some "Medical researcher focusing on blockchain applications",
    profileImage := none, tokenBalance := 62 }

/-- Seeded user `researcher_3`. -/
def seedUser3 : User :=
  { id := 3, username := "researcher_3", password := "wallet_auth",
    walletAddress := some "0x789ghi...", institution := some "Oxford University",
    bio := some "AI ethics researcher", profileImage := none,
    tokenBalance := 17 }

/-- Seeded paper 1 (verified, AI-analyzed). -/
def seedPaper1 : Paper :=
  { id := 1,
    title := "Novel Approach to Quantum Computing Using Blockchain Verification",
    abstract := "This paper introduces a novel approach to quantum computing that leverages blockchain technology for verification of quantum states. We demonstrate how this approach can improve the reliability and security of quantum computations in distributed systems.",
    authorId := 1, ipfsCid := "QmT7fsg3fTtDgVgLw...",
    metadataHash := some "0x123...", status := "verified",
    createdAt := 20230615,
    tags := ["quantum-computing", "blockchain", "security"],
    viewCount := 423, tokenCount := 45, aiVerified := true,
    aiAnalysis := some
      { plagiarismCheck := "No plagiarism detected. Content appears to be original.",
        referenceVerification := "All references are properly cited and valid.",
        contentSummary := "This paper presents a novel approach to quantum computing verification using blockchain technology. The authors demonstrate improved security and reliability in distributed quantum systems.",
        qualityRating := 9 } }

/-- Seeded paper 2 (reviewed, AI-analyzed). -/
def seedPaper2 : Paper :=
  { id := 2,
    title := "Decentralized Clinical Trials: A Blockchain Approach",
    abstract := "This study explores how blockchain technology can enhance transparency and data integrity in clinical trials, addressing reproducibility issues in medical research. We present a framework for decentralized clinical trials that ensures tamper-proof data collection and analysis.",
    authorId := 2, ipfsCid := "QmW7hsg2gHvDbKpT8...",
    metadataHash := some "0x456...", status := "reviewed",
    createdAt := 20230529,
    tags := ["clinical-trials", "blockchain", "medical-research"],
    viewCount := 287, tokenCount := 62, aiVerified := true,
    aiAnalysis := some
      { plagiarismCheck := "No plagiarism detected. Content appears to be original.",
        referenceVerification := "All references are properly cited and valid.",
        contentSummary := "This paper presents a framework for decentralized clinical trials using blockchain technology. The approach addresses data integrity and reproducibility issues in medical research.",
        qualityRating := 8 } }

/-- Seeded paper 3 (submitted, unanalyzed). -/
def seedPaper3 : Paper :=
  { id := 3,
    title := "Ethics of AI in Scientific Research: A Decentralized Framework",
    abstract := "This paper proposes a decentralized governance framework for ethical AI use in scientific research, addressing concerns of bias and transparency. We discuss how blockchain-based governance can provide accountability while maintaining scientific freedom.",
    authorId := 3, ipfsCid := "QmT9ksh3fTtDgVg3w...",
    metadataHash := some "0x789...", status := "submitted",
    createdAt := 20230703,
    tags := ["ai-ethics", "blockchain", "governance"],
    viewCount := 156, tokenCount := 17, aiVerified := false,
    aiAnalysis := none }

/-- The five seeded reviews. -/
def seedReviews : List Review :=
  [ { id := 1, paperId := 1, reviewerId := 2,
      content := "This paper presents a fascinating approach to quantum verification. The methodology is sound and the results are promising. I would recommend more extensive testing with larger quantum systems in future work.",
      rating := 4, ipfsCid := some "QmReview1...",
      txHash := some "0xreview1hash...", createdAt := 20230620 },
    { id := 2, paperId := 1, reviewerId := 3,
      content := "Excellent work on combining quantum computing with blockchain verification. The security implications are significant and well-explained. The paper could benefit from more discussion of scalability challenges.",
      rating := 5, ipfsCid := some "QmReview2...",
      txHash := some "0xreview2hash...", createdAt := 20230625 },
    { id := 3, paperId := 2, reviewerId := 1,
      content := "This paper makes a strong case for blockchain in clinical trials. The framework is well-designed and addresses key challenges in the field. I would like to see more discussion on regulatory compliance aspects.",
      rating := 4, ipfsCid := some "QmReview3...",
      txHash := some "0xreview3hash...", createdAt := 20230610 },
    { id := 4, paperId := 2, reviewerId := 3,
      content := "A comprehensive study on decentralizing clinical trials. The implementation details are thorough and the case studies compelling. Future work should address patient privacy considerations in more detail.",
      rating := 5, ipfsCid := some "QmReview4...",
      txHash := some "0xreview4hash...", createdAt := 20230615 },
    { id := 5, paperId := 3, reviewerId := 1,
      content := "This paper tackles an important topic in AI ethics governance. The decentralized approach is novel, but I would suggest more concrete mechanisms for implementation and oversight.",
      rating := 3, ipfsCid := some "QmReview5...",
      txHash := some "0xreview5hash...", createdAt := 20230710 } ]

/-- `new MemStorage()`: the constructor's net result — seeded users,
papers and reviews, an empty token ledger, and `tokenIdCounter` bumped to
100. -/
def seededStorage : Storage :=
  { users := [seedUser1, seedUser2, seedUser3],
    papers := [seedPaper1, seedPaper2, seedPaper3],
    reviews := seedReviews,
    tokens := [],
    userIdCounter := 4, paperIdCounter := 4, reviewIdCounter := 6,
    tokenIdCounter := 100 }

/-- Sum of the token-ledger amounts credited to a user. -/
def tokenSum (s : Storage) (userId : Nat) : Int :=
  ((s.tokens.filter (fun t => t.userId == userId)).map (fun t => t.amount)).sum

/-! ## Helper lemmas about keyed-list updates -/

lemma find?_map_update_self {α : Type} (idf : α → Nat) (g : α → α)
    (hg : ∀ x, idf (g x) = idf x) (k : Nat) :
    ∀ (l : List α) (a : α), l.find? (fun x => idf x == k) = some a →
      (l.map (fun x => if idf x = k then g x else x)).find?
        (fun x => idf x == k) = some (g a) := by
  intro l
  induction l with
  | nil => intro a h; simp [List.find?] at h
  | cons x xs ih =>
      intro a h
      by_cases hx : idf x = k
      · rw [List.find?_cons_of_pos _ (by simp [hx])] at h
        cases h
        simp only [List.map]
        rw [List.find?_cons_of_pos _ (by simp [hg, hx])]
        simp [hx]
      · rw [List.find?_cons_of_neg _ (by simp [hx])] at h
        simp only [List.map]
        rw [List.find?_cons_of_neg _ (by simp [hx])]
        exact ih a h

lemma find?_map_update_ne {α : Type} (idf : α → Nat) (g : α → α)
    (hg : ∀ x, idf (g x) = idf x) (k k' : Nat) (hk : k' ≠ k) :
    ∀ l : List α,
      (l.map (fun x => if idf x = k then g x else x)).find?
        (fun x => idf x == k') = l.find? (fun x => idf x == k') := by
  intro l
  induction l with
  | nil => simp
  | cons x xs ih =>
      simp only [List.map]
      by_cases hxk : idf x = k
      · rw [if_pos hxk]
        have hgx : ¬ idf (g x) = k' := by
          rw [hg, hxk]; exact fun h => hk h.symm
        have hxx : ¬ idf x = k' := by
          rw [hxk]; exact fun h => hk h.symm
        rw [List.find?_cons_of_neg _ (by simp [hgx]),
          List.find?_cons_of_neg _ (by simp [hxx])]
        exact ih
      · rw [if_neg hxk]
        by_cases hx : idf x = k'
        · rw [List.find?_cons_of_pos _ (by simp [hx]),
            List.find?_cons_of_pos _ (by simp [hx])]
        · rw [List.find?_cons_of_neg _ (by simp [hx]),
            List.find?_cons_of_neg _ (by simp [hx])]
          exact ih

/-! ## Effect lemmas for the repository operations -/

lemma awardTokens_tokens (s : Storage) (uid : Nat) (amt : Int) (r : String)
    (now : Nat) :
    ((awardTokens s uid amt r now).2).tokens =
      s.tokens ++ [{ id := s.tokenIdCounter, userId := uid, amount := amt,
                     reason := r, txHash := none, createdAt := now }] := by
  simp only [awardTokens]
  split
  · split <;> rfl
  · rfl

lemma awardTokens_reviews (s : Storage) (uid : Nat) (amt : Int) (r : String)
    (now : Nat) :
    ((awardTokens s uid amt r now).2).reviews = s.reviews := by
  simp only [awardTokens]
  split
  · split <;> rfl
  · rfl

lemma awardTokens_users (s : Storage) (uid : Nat) (amt : Int) (r : String)
    (now : Nat) :
    ((awardTokens s uid amt r now).2).users =
      s.users.map (fun u =>
        if u.id = uid then { u with tokenBalance := u.tokenBalance + amt }
        else u) := by
  simp only [awardTokens]
  split
  · split <;> rfl
  · rfl

lemma awardTokens_tokenIdCounter (s : Storage) (uid : Nat) (amt : Int)
    (r : String) (now : Nat) :
    ((awardTokens s uid amt r now).2).tokenIdCounter = s.tokenIdCounter + 1 := by
  simp only [awardTokens]
  split
  · split <;> rfl
  · rfl

lemma awardTokens_userIdCounter (s : Storage) (uid : Nat) (amt : Int)
    (r : String) (now : Nat) :
    ((awardTokens s uid amt r now).2).userIdCounter = s.userIdCounter := by
  simp only [awardTokens]
  split
  · split <;> rfl
  · rfl

lemma awardTokens_papers_of_not_review (s : Storage) (uid : Nat) (amt : Int)
    (r : String) (now : Nat) (h : jsIncludes r "review" = false) :
    ((awardTokens s uid amt r now).2).papers = s.papers := by
  simp only [awardTokens, h]
  rfl

lemma awardTokens_getUser_self (s : Storage) (uid : Nat) (amt : Int)
    (r : String) (now : Nat) (u : User) (hu : getUser s uid = some u) :
    getUser (awardTokens s uid amt r now).2 uid =
      some { u with tokenBalance := u.tokenBalance + amt } := by
  unfold getUser
  rw [awardTokens_users]
  exact find?_map_update_self User.id
    (fun v => { v with tokenBalance := v.tokenBalance + amt })
    (fun _ => rfl) uid s.users u hu

lemma awardTokens_getUser_ne (s : Storage) (uid : Nat) (amt : Int)
    (r : String) (now : Nat) (k : Nat) (hk : k ≠ uid) :
    getUser (awardTokens s uid amt r now).2 k = getUser s k := by
  unfold getUser
  rw [awardTokens_users]
  exact find?_map_update_ne User.id
    (fun v => { v with tokenBalance := v.tokenBalance + amt })
    (fun _ => rfl) uid k hk s.users

lemma updatePaperStatus_users (s : Storage) (pid : Nat) (st : String) :
    ((updatePaperStatus s pid st).2).users = s.users := by
  unfold updatePaperStatus; split <;> rfl

lemma updatePaperStatus_tokens (s : Storage) (pid : Nat) (st : String) :
    ((updatePaperStatus s pid st).2).tokens = s.tokens := by
  unfold updatePaperStatus; split <;> rfl

lemma updatePaperStatus_reviews (s : Storage) (pid : Nat) (st : String) :
    ((updatePaperStatus s pid st).2).reviews = s.reviews := by
  unfold updatePaperStatus; split <;> rfl

lemma updatePaperStatus_tokenIdCounter (s : Storage) (pid : Nat) (st : String) :
    ((updatePaperStatus s pid st).2).tokenIdCounter = s.tokenIdCounter := by
  unfold updatePaperStatus; split <;> rfl

lemma updatePaperStatus_getPaper_self (s : Storage) (pid : Nat) (st : String)
    (p : Paper) (hp : getPaper s pid = some p) :
    getPaper (updatePaperStatus s pid st).2 pid = some { p with status := st } := by
  unfold updatePaperStatus
  rw [hp]
  unfold getPaper
  exact find?_map_update_self Paper.id (fun q => { q with status := st })
    (fun _ => rfl) pid s.papers p hp

lemma updatePaperAIVerified_users (s : Storage) (pid : Nat) (v : Bool) :
    ((updatePaperAIVerified s pid v).2).users = s.users := by
  unfold updatePaperAIVerified; split <;> rfl

lemma updatePaperAIVerified_tokens (s : Storage) (pid : Nat) (v : Bool) :
    ((updatePaperAIVerified s pid v).2).tokens = s.tokens := by
  unfold updatePaperAIVerified; split <;> rfl

lemma updatePaperAIVerified_reviews (s : Storage) (pid : Nat) (v : Bool) :
    ((updatePaperAIVerified s pid v).2).reviews = s.reviews := by
  unfold updatePaperAIVerified; split <;> rfl

lemma updatePaperAIVerified_tokenIdCounter (s : Storage) (pid : Nat) (v : Bool) :
    ((updatePaperAIVerified s pid v).2).tokenIdCounter = s.tokenIdCounter := by
  unfold updatePaperAIVerified; split <;> rfl

lemma updatePaperAIVerified_getPaper_self (s : Storage) (pid : Nat) (v : Bool)
    (p : Paper) (hp : getPaper s pid = some p) :
    getPaper (updatePaperAIVerified s pid v).2 pid =
      some { p with aiVerified := v } := by
  unfold updatePaperAIVerified
  rw [hp]
  unfold getPaper
  exact find?_map_update_self Paper.id (fun q => { q with aiVerified := v })
    (fun _ => rfl) pid s.papers p hp

/-- The verification reward reason is not a review-related reason for the
`awardTokens` heuristic. -/
lemma hqReason_not_review : jsIncludes hqReason "review" = false := by decide

/-- Combined effect of the promotion block on an existing paper whose
author exists: the paper becomes `verified` and AI-verified, one 10-token
ledger entry is appended for the author, and the author's balance grows
by 10. -/
lemma promoteVerified_spec (s : Storage) (pid now : Nat) (p : Paper) (u : User)
    (hp : getPaper s pid = some p) (hu : getUser s p.authorId = some u) :
    getPaper (promoteVerified s pid now) pid =
      some { p with status := "verified", aiVerified := true } ∧
    (promoteVerified s pid now).tokens =
      s.tokens ++ [{ id := s.tokenIdCounter, userId := p.authorId,
                     amount := 10, reason := hqReason, txHash := none,
                     createdAt := now }] ∧
    getUser (promoteVerified s pid now) p.authorId =
      some { u with tokenBalance := u.tokenBalance + 10 } ∧
    (promoteVerified s pid now).tokenIdCounter = s.tokenIdCounter + 1 := by
  have h1 := updatePaperStatus_getPaper_self s pid "verified" p hp
  have h2 := updatePaperAIVerified_getPaper_self _ pid true _ h1
  have husers : ((updatePaperAIVerified (updatePaperStatus s pid "verified").2
      pid true).2).users = s.users := by
    rw [updatePaperAIVerified_users, updatePaperStatus_users]
  have htokens : ((updatePaperAIVerified (updatePaperStatus s pid "verified").2
      pid true).2).tokens = s.tokens := by
    rw [updatePaperAIVerified_tokens, updatePaperStatus_tokens]
  have hcnt : ((updatePaperAIVerified (updatePaperStatus s pid "verified").2
      pid true).2).tokenIdCounter = s.tokenIdCounter := by
    rw [updatePaperAIVerified_tokenIdCounter, updatePaperStatus_tokenIdCounter]
  have hu2 : getUser ((updatePaperAIVerified
      (updatePaperStatus s pid "verified").2 pid true).2) p.authorId = some u := by
    unfold getUser
    rw [husers]
    exact hu
  have hPV : promoteVerified s pid now =
      (awardTokens ((updatePaperAIVerified
        (updatePaperStatus s pid "verified").2 pid true).2)
        p.authorId 10 hqReason now).2 := by
    simp only [promoteVerified]
    rw [h2]
  rw [hPV]
  refine ⟨?_, ?_, ?_, ?_⟩
  · unfold getPaper
    rw [awardTokens_papers_of_not_review _ _ _ _ _ hqReason_not_review]
    exact h2
  · rw [awardTokens_tokens, htokens, hcnt]
  · rw [awardTokens_getUser_self _ _ _ _ _ u hu2]
  · rw [awardTokens_tokenIdCounter, hcnt]

/-! ## Branch lemmas for the analysis orchestrator -/

lemma analyzeSingleChunk_fst (oracle : String → Analysis) (s : Storage)
    (pid : Nat) (title content : String) (now : Nat) :
    (analyzeSingleChunk oracle s pid title content now).1 =
      oracle (singleChunkMessage title content) := by
  simp only [analyzeSingleChunk]
  split <;> rfl

lemma analyzeSingleChunk_snd (oracle : String → Analysis) (s : Storage)
    (pid : Nat) (title content : String) (now : Nat) :
    (analyzeSingleChunk oracle s pid title content now).2 =
      if (oracle (singleChunkMessage title content)).qualityRating ≥ 7 then
        promoteVerified s pid now
      else s := by
  simp only [analyzeSingleChunk]
  split <;> simp_all

lemma analyzePaperContent_snd_single (oracle : String → Analysis) (s : Storage)
    (pid : Nat) (title content abstract : String) (now : Nat)
    (h1 : (splitTextIntoChunks content MAX_CHUNK_SIZE).length = 1) :
    (analyzePaperContent oracle s pid title content abstract now).2 =
      (analyzeSingleChunk oracle s pid title content now).2 := by
  simp only [analyzePaperContent, h1, if_true]

lemma analyzePaperContent_snd_multi (oracle : String → Analysis) (s : Storage)
    (pid : Nat) (title content abstract : String) (now : Nat)
    (h1 : (splitTextIntoChunks content MAX_CHUNK_SIZE).length ≠ 1) :
    (analyzePaperContent oracle s pid title content abstract now).2 =
      (if (oracle (representativeSample title abstract
            (splitTextIntoChunks content MAX_CHUNK_SIZE))).qualityRating ≥ 6 then
        promoteVerified
          ((analyzeSingleChunk oracle s pid title (abstractOnlyContent abstract) now).2)
          pid now
      else
        (analyzeSingleChunk oracle s pid title (abstractOnlyContent abstract) now).2) := by
  simp only [analyzePaperContent, h1, if_false]
  split <;> rfl

/-- `createPaper` hands the post-insertion state to `awardTokens`. -/
lemma createPaper_snd (s : Storage) (ip : InsertPaper) (now : Nat) :
    (createPaper s ip now).2 =
      (awardTokens
        { s with papers := s.papers ++ [(createPaper s ip now).1],
                 paperIdCounter := s.paperIdCounter + 1 }
        ip.authorId 3 "Paper submission" now).2 := rfl

/-! ## Demo fixtures used by the witness theorems -/

/-- A minimal author used in concrete runs. -/
def demoUser : User :=
  { id := 1, username := "alice", password := "wallet_auth",
    walletAddress := some "0xAA", institution := none, bio := none,
    profileImage := none, tokenBalance := 0 }

/-- A minimal paper by `demoUser` used in concrete runs. -/
def demoPaper : Paper :=
  { id := 1, title := "T", abstract := "A", authorId := 1, ipfsCid := "Qm1",
    metadataHash := none, status := "submitted", createdAt := 0, tags := [],
    viewCount := 0, tokenCount := 0, aiVerified := false, aiAnalysis := none }

/-- A small storage state holding `demoUser` and `demoPaper`. -/
def demoStorage : Storage :=
  { users := [demoUser], papers := [demoPaper], reviews := [], tokens := [],
    userIdCounter := 2, paperIdCounter := 2, reviewIdCounter := 1,
    tokenIdCounter := 1 }

/-- An insert payload targeting `demoUser` as author. -/
def demoInsertPaper : InsertPaper :=
  { title := "Paper X", abstract := "An abstract", authorId := 1,
    ipfsCid := "Qm2", metadataHash := none, tags := [] }

/-- A model oracle that rates every input 8. -/
def demoOracle : String → Analysis :=
  fun _ => { plagiarismCheck := "", referenceVerification := "",
             contentSummary := "", qualityRating := 8 }

/-! ## C1 — `createPaper` post-state -/

/-- C1: every paper returned by `createPaper` has status `"submitted"`,
`viewCount` 0, `tokenCount` 0, `aiVerified` false, `aiAnalysis` null and a
fresh identifier (the current paper counter, distinct from every existing
paper id), and a single 3-token "Paper submission" ledger entry is
appended for the author, whose cached balance is exactly 3 greater than
before. -/
theorem C1_createPaper_spec (s : Storage) (ip : InsertPaper) (now : Nat)
    (u : User) (hu : getUser s ip.authorId = some u)
    (hfresh : ∀ q ∈ s.papers, q.id < s.paperIdCounter) :
    ((createPaper s ip now).1).status = "submitted" ∧
    ((createPaper s ip now).1).viewCount = 0 ∧
    ((createPaper s ip now).1).tokenCount = 0 ∧
    ((createPaper s ip now).1).aiVerified = false ∧
    ((createPaper s ip now).1).aiAnalysis = none ∧
    ((createPaper s ip now).1).id = s.paperIdCounter ∧
    (∀ q ∈ s.papers, q.id ≠ ((createPaper s ip now).1).id) ∧
    ((createPaper s ip now).2).tokens =
      s.tokens ++ [{ id := s.tokenIdCounter, userId := ip.authorId,
                     amount := 3, reason := "Paper submission",
                     txHash := none, createdAt := now }] ∧
    getUser (createPaper s ip now).2 ip.authorId =
      some { u with tokenBalance := u.tokenBalance + 3 } := by
  refine ⟨rfl, rfl, rfl, rfl, rfl, rfl, ?_, ?_, ?_⟩
  · intro q hq
    exact Nat.ne_of_lt (hfresh q hq)
  · rw [createPaper_snd, awardTokens_tokens]
  · rw [createPaper_snd]
    exact awardTokens_getUser_self _ _ _ _ _ u hu

/-- Witness for C1: a concrete run on `demoStorage`. -/
theorem C1_createPaper_spec_witness :
    getUser demoStorage 1 = some demoUser ∧
    ((createPaper demoStorage demoInsertPaper 7).1).status = "submitted" ∧
    getUser (createPaper demoStorage demoInsertPaper 7).2 1 =
      some { demoUser with tokenBalance := demoUser.tokenBalance + 3 } := by
  have h := C1_createPaper_spec demoStorage demoInsertPaper 7 demoUser
    (by decide) (by decide)
  exact ⟨by decide, h.1, h.2.2.2.2.2.2.2.2⟩

/-! ## C2 — promotion thresholds of the analysis paths -/

/-- C2: on a single-chunk analysis a quality rating ≥ 7 sets the paper's
status to `"verified"`, sets `aiVerified`, and appends a 10-token
`"High-quality paper verified by AI"` award to the author; a rating of 6
on a single-chunk run changes nothing; on a multi-chunk (sampled) run a
sample rating ≥ 6 applies the same promotion side effects (relative to
the state left by the preliminary abstract-only pass). -/
theorem C2_quality_thresholds (oracle : String → Analysis) (s : Storage)
    (pid : Nat) (title content abstract : String) (now : Nat) (p : Paper)
    (u : User) (hp : getPaper s pid = some p)
    (hu : getUser s p.authorId = some u) :
    ((splitTextIntoChunks content MAX_CHUNK_SIZE).length = 1 →
      (oracle (singleChunkMessage title content)).qualityRating ≥ 7 →
      getPaper (analyzePaperContent oracle s pid title content abstract now).2 pid =
        some { p with status := "verified", aiVerified := true } ∧
      ((analyzePaperContent oracle s pid title content abstract now).2).tokens =
        s.tokens ++ [{ id := s.tokenIdCounter, userId := p.authorId,
                       amount := 10, reason := hqReason, txHash := none,
                       createdAt := now }] ∧
      getUser (analyzePaperContent oracle s pid title content abstract now).2
          p.authorId = some { u with tokenBalance := u.tokenBalance + 10 }) ∧
    ((splitTextIntoChunks content MAX_CHUNK_SIZE).length = 1 →
      (oracle (singleChunkMessage title content)).qualityRating = 6 →
      (analyzePaperContent oracle s pid title content abstract now).2 = s) ∧
    ((splitTextIntoChunks content MAX_CHUNK_SIZE).length ≠ 1 →
      (oracle (representativeSample title abstract
        (splitTextIntoChunks content MAX_CHUNK_SIZE))).qualityRating ≥ 6 →
      (∃ q, getPaper (analyzePaperContent oracle s pid title content abstract now).2 pid =
          some q ∧ q.status = "verified" ∧ q.aiVerified = true) ∧
      ((analyzePaperContent oracle s pid title content abstract now).2).tokens =
        ((analyzeSingleChunk oracle s pid title (abstractOnlyContent abstract) now).2).tokens
          ++ [{ id := ((analyzeSingleChunk oracle s pid title
                  (abstractOnlyContent abstract) now).2).tokenIdCounter,
                userId := p.authorId, amount := 10, reason := hqReason,
                txHash := none, createdAt := now }] ∧
      Option.map User.tokenBalance
          (getUser (analyzePaperContent oracle s pid title content abstract now).2
            p.authorId) =
        Option.map (fun v => v.tokenBalance + 10)
          (getUser ((analyzeSingleChunk oracle s pid title
            (abstractOnlyContent abstract) now).2) p.authorId)) := by
  refine ⟨?_, ?_, ?_⟩
  · intro h1 h7
    rw [analyzePaperContent_snd_single _ _ _ _ _ _ _ h1, analyzeSingleChunk_snd,
      if_pos h7]
    have h := promoteVerified_spec s pid now p u hp hu
    exact ⟨h.1, h.2.1, h.2.2.1⟩
  · intro h1 h6
    rw [analyzePaperContent_snd_single _ _ _ _ _ _ _ h1, analyzeSingleChunk_snd,
      if_neg (by rw [h6]; decide)]
  · intro h1 h6
    rw [analyzePaperContent_snd_multi _ _ _ _ _ _ _ h1, if_pos h6]
    set s1 := (analyzeSingleChunk oracle s pid title (abstractOnlyContent abstract) now).2
      with hs1
    have hstep : ∃ p1 u1, getPaper s1 pid = some p1 ∧ p1.authorId = p.authorId ∧
        getUser s1 p.authorId = some u1 := by
      rw [hs1, analyzeSingleChunk_snd]
      by_cases h7 : (oracle (singleChunkMessage title
          (abstractOnlyContent abstract))).qualityRating ≥ 7
      · rw [if_pos h7]
        have h := promoteVerified_spec s pid now p u hp hu
        exact ⟨_, _, h.1, rfl, h.2.2.1⟩
      · rw [if_neg h7]
        exact ⟨p, u, hp, rfl, hu⟩
    obtain ⟨p1, u1, hp1, hauth, hu1⟩ := hstep
    have h := promoteVerified_spec s1 pid now p1 u1 hp1 (by rw [hauth]; exact hu1)
    have h2 := h.2.1
    have h3 := h.2.2.1
    rw [hauth] at h2 h3
    refine ⟨⟨_, h.1, rfl, rfl⟩, ?_, ?_⟩
    · rw [h2]
    · rw [h3, hu1]
      rfl

/-- Witness for C2: a concrete single-chunk run rated 8 promotes the demo
paper. -/
theorem C2_quality_thresholds_witness :
    (splitTextIntoChunks "hello" MAX_CHUNK_SIZE).length = 1 ∧
    getPaper (analyzePaperContent demoOracle demoStorage 1 "T" "hello" "A" 3).2 1 =
      some { demoPaper with status := "verified", aiVerified := true } := by
  have h := C2_quality_thresholds demoOracle demoStorage 1 "T" "hello" "A" 3
    demoPaper demoUser (by decide) (by decide)
  exact ⟨by decide, (h.1 (by decide) (by decide)).1⟩

/-! ## C3 — the second review marks the paper reviewed -/

/-- Changing only the review map and its counter does not affect paper
lookup. -/
lemma getPaper_set_reviews (s : Storage) (R : List Review) (n pid : Nat) :
    getPaper { s with reviews := R, reviewIdCounter := n } pid =
      getPaper s pid := rfl

/-- `createReview` appends exactly the inserted review. -/
lemma createReview_reviews (s : Storage) (ir : InsertReview) (now : Nat) :
    ((createReview s ir now).2).reviews =
      s.reviews ++ [{ id := s.reviewIdCounter, paperId := ir.paperId,
                      reviewerId := ir.reviewerId, content := ir.content,
                      rating := ir.rating, ipfsCid := ir.ipfsCid,
                      txHash := ir.txHash, createdAt := now }] := by
  simp only [createReview]
  split
  · split <;> rfl
  · rfl

/-- After `createReview`, the target paper's status is `"reviewed"`
exactly when the post-insertion review count reaches 2. -/
lemma createReview_getPaper_target (s : Storage) (ir : InsertReview)
    (now : Nat) (p : Paper) (hp : getPaper s ir.paperId = some p) :
    getPaper (createReview s ir now).2 ir.paperId =
      (if getReviewCountForPaper s ir.paperId + 1 ≥ 2
       then some { p with status := "reviewed" } else some p) := by
  have hp' : s.papers.find? (fun q => q.id == ir.paperId) = some p := hp
  have hpid : p.id = ir.paperId := by simpa using List.find?_some hp'
  simp only [createReview]
  have hscrut : getPaper
      { s with
        reviews := s.reviews ++
          [{ id := s.reviewIdCounter, paperId := ir.paperId,
             reviewerId := ir.reviewerId, content := ir.content,
             rating := ir.rating, ipfsCid := ir.ipfsCid,
             txHash := ir.txHash, createdAt := now }],
        reviewIdCounter := s.reviewIdCounter + 1 } ir.paperId = some p := hp
  rw [hscrut]
  dsimp only
  have hcnt : getReviewCountForPaper
      { s with
        reviews := s.reviews ++
          [{ id := s.reviewIdCounter, paperId := ir.paperId,
             reviewerId := ir.reviewerId, content := ir.content,
             rating := ir.rating, ipfsCid := ir.ipfsCid,
             txHash := ir.txHash, createdAt := now }],
        reviewIdCounter := s.reviewIdCounter + 1 } p.id =
      getReviewCountForPaper s ir.paperId + 1 := by
    rw [hpid]
    simp [getReviewCountForPaper, List.filter_append]
  rw [hcnt]
  by_cases hc : getReviewCountForPaper s ir.paperId + 1 ≥ 2
  · rw [if_pos hc, if_pos hc]
    have hp'' : s.papers.find? (fun q => q.id == p.id) = some p := by
      rw [hpid]; exact hp'
    rw [← hpid]
    exact find?_map_update_self Paper.id
      (fun q => { q with status := "reviewed" }) (fun _ => rfl)
      p.id s.papers p hp''
  · rw [if_neg hc, if_neg hc]
    exact hp

/-- C3: a `createReview` call that brings the target paper's review count
to at least 2 sets its status to `"reviewed"`; with fewer reviews the
paper is returned unchanged; the review count always grows by exactly
one. -/
theorem C3_second_review_marks_reviewed (s : Storage) (ir : InsertReview)
    (now : Nat) (p : Paper) (hp : getPaper s ir.paperId = some p) :
    getReviewCountForPaper (createReview s ir now).2 ir.paperId =
      getReviewCountForPaper s ir.paperId + 1 ∧
    (getReviewCountForPaper s ir.paperId + 1 ≥ 2 →
      getPaper (createReview s ir now).2 ir.paperId =
        some { p with status := "reviewed" }) ∧
    (getReviewCountForPaper s ir.paperId + 1 < 2 →
      getPaper (createReview s ir now).2 ir.paperId = some p) := by
  refine ⟨?_, ?_, ?_⟩
  · unfold getReviewCountForPaper
    rw [createReview_reviews]
    simp [List.filter_append]
  · intro h
    rw [createReview_getPaper_target s ir now p hp, if_pos h]
  · intro h
    rw [createReview_getPaper_target s ir now p hp, if_neg (by omega)]

/-- A review of `demoPaper` already present before the witness run. -/
def demoReview : Review :=
  { id := 1, paperId := 1, reviewerId := 2, content := "solid work",
    rating := 4, ipfsCid := none, txHash := none, createdAt := 0 }

/-- `demoStorage` with one existing review of `demoPaper`. -/
def demoStorageOneReview : Storage :=
  { demoStorage with reviews := [demoReview], reviewIdCounter := 2 }

/-- The second review inserted by the C3 witness. -/
def demoInsertReview : InsertReview :=
  { paperId := 1, reviewerId := 3, content := "great paper", rating := 5,
    ipfsCid := none, txHash := none }

/-- Witness for C3: a second review on the demo paper flips its status to
`"reviewed"`. -/
theorem C3_second_review_marks_reviewed_witness :
    getReviewCountForPaper demoStorageOneReview 1 + 1 ≥ 2 ∧
    getPaper (createReview demoStorageOneReview demoInsertReview 5).2 1 =
      some { demoPaper with status := "reviewed" } := by
  have h := C3_second_review_marks_reviewed demoStorageOneReview
    demoInsertReview 5 demoPaper (by decide)
  exact ⟨by decide, h.2.1 (by decide)⟩

/-! ## C7 — fail-closed signature verification -/

/-- C7: `verifySignature` returns `true` exactly when address recovery
succeeds and the recovered address matches the claimed one
case-insensitively, and any recovery error yields `false` (the error is
swallowed, never propagated). -/
theorem C7_verifySignature_contract
    (recover : String → String → Except String String)
    (message signature address : String) :
    (verifySignature recover message signature address = true ↔
      ∃ a, recover message signature = Except.ok a ∧
        a.toLower = address.toLower) ∧
    (∀ e, recover message signature = Except.error e →
      verifySignature recover message signature address = false) := by
  constructor
  · simp only [verifySignature]
    cases h : recover message signature with
    | ok a => simp
    | error e => simp
  · intro e he
    simp only [verifySignature, he]

/-- Witness for C7: a matching recovery (up to case) verifies; a throwing
recovery yields `false`. -/
theorem C7_verifySignature_contract_witness :
    verifySignature (fun _ _ => Except.ok "0xab") "m" "sig" "0xab" = true ∧
    verifySignature (fun _ _ => Except.error "bad sig") "m" "sig" "0xab" =
      false := by
  constructor
  · exact (C7_verifySignature_contract (fun _ _ => Except.ok "0xab")
      "m" "sig" "0xab").1.mpr ⟨"0xab", rfl, rfl⟩
  · exact (C7_verifySignature_contract (fun _ _ => Except.error "bad sig")
      "m" "sig" "0xab").2 "bad sig" rfl

/-! ## C5 / C6 — the signature gate of `POST /api/papers` -/

/-- A recovery oracle that always throws, so any supplied signature fails
verification. -/
def badRecover : String → String → Except String String :=
  fun _ _ => Except.error "invalid signature"

/-- A request from an unknown wallet carrying a (failing) signature. -/
def c5Request : PaperRequest :=
  { title := "T", abstract := "A", ipfsCid := "Qm1", metadataHash := none,
    tags := none, walletAddress := "0xAA", signature := some "0xsig" }

/-- Counterexample for C5: on `emptyStorage`, a failing signature yields
401 — but a user record for the wallet has already been created, so the
request is not mutation-free. -/
theorem C5_counterexample_user_created :
    (postPapers badRecover emptyStorage c5Request "researcher_1" 0).1 =
      PapersResponse.invalidSignature ∧
    ((postPapers badRecover emptyStorage c5Request "researcher_1" 0).2).users.length = 1 ∧
    emptyStorage.users.length = 0 := by
  refine ⟨by decide, by decide, rfl⟩

/-- C5 (amended): a validated request whose supplied signature fails
verification is answered 401 and creates no paper and awards no tokens —
but when the wallet address was unknown, a fresh zero-balance user record
for it has already been inserted before the signature check. -/
theorem C5_failed_signature_no_paper
    (recover : String → String → Except String String) (s : Storage)
    (req : PaperRequest) (username : String) (now : Nat)
    (hw : req.walletAddress ≠ "")
    (hsig : jsTruthy req.signature = true)
    (hbad : verifySignature recover (submissionMessage req.title req.ipfsCid)
      (req.signature.getD "") req.walletAddress = false) :
    (postPapers recover s req username now).1 =
      PapersResponse.invalidSignature ∧
    ((postPapers recover s req username now).2).papers = s.papers ∧
    ((postPapers recover s req username now).2).tokens = s.tokens ∧
    (((postPapers recover s req username now).2).users = s.users ∨
      ∃ nu : User,
        ((postPapers recover s req username now).2).users = s.users ++ [nu] ∧
        nu.walletAddress = some req.walletAddress ∧ nu.tokenBalance = 0) := by
  simp only [postPapers, if_neg hw]
  cases hres : getUserByWalletAddress s req.walletAddress with
  | some u =>
      rw [if_pos ⟨hsig, hbad⟩]
      exact ⟨rfl, rfl, rfl, Or.inl rfl⟩
  | none =>
      rw [if_pos ⟨hsig, hbad⟩]
      exact ⟨rfl, rfl, rfl, Or.inr ⟨_, rfl, rfl, rfl⟩⟩

/-- Witness for C5 (amended): the concrete 401 run of the counterexample
satisfies the amended description. -/
theorem C5_failed_signature_no_paper_witness :
    (postPapers badRecover emptyStorage c5Request "researcher_1" 0).1 =
      PapersResponse.invalidSignature ∧
    ((postPapers badRecover emptyStorage c5Request "researcher_1" 0).2).papers =
      emptyStorage.papers ∧
    ((postPapers badRecover emptyStorage c5Request "researcher_1" 0).2).tokens =
      emptyStorage.tokens := by
  have h := C5_failed_signature_no_paper badRecover emptyStorage c5Request
    "researcher_1" 0 (by decide) (by decide) (by decide)
  exact ⟨h.1, h.2.1, h.2.2.1⟩

/-- C6: on a validated request, the response is 401 exactly when a
signature is (truthily) supplied and fails verification; otherwise —
including when no signature is supplied at all — the submission proceeds
and a paper is created (201). -/
theorem C6_signature_gate
    (recover : String → String → Except String String) (s : Storage)
    (req : PaperRequest) (username : String) (now : Nat)
    (hw : req.walletAddress ≠ "")
    (hids : ∀ u ∈ s.users, u.id ≠ 0)
    (hcnt : s.userIdCounter ≠ 0) :
    ((postPapers recover s req username now).1 =
        PapersResponse.invalidSignature ↔
      (jsTruthy req.signature = true ∧
        verifySignature recover (submissionMessage req.title req.ipfsCid)
          (req.signature.getD "") req.walletAddress = false)) ∧
    (¬(jsTruthy req.signature = true ∧
        verifySignature recover (submissionMessage req.title req.ipfsCid)
          (req.signature.getD "") req.walletAddress = false) →
      ∃ paper, (postPapers recover s req username now).1 =
        PapersResponse.created paper) := by
  simp only [postPapers, if_neg hw]
  cases hres : getUserByWalletAddress s req.walletAddress with
  | some u =>
      dsimp only
      have hu0 : u.id ≠ 0 := by
        have hmem : u ∈ s.users :=
          List.mem_of_find?_eq_some hres
        exact hids u hmem
      by_cases hc : jsTruthy req.signature = true ∧
          verifySignature recover (submissionMessage req.title req.ipfsCid)
            (req.signature.getD "") req.walletAddress = false
      · rw [if_pos hc]
        exact ⟨by simp [hc], fun hn => absurd hc hn⟩
      · rw [if_neg hc, if_neg hu0]
        exact ⟨by simp [hc], fun _ => ⟨_, rfl⟩⟩
  | none =>
      dsimp only [createUser]
      by_cases hc : jsTruthy req.signature = true ∧
          verifySignature recover (submissionMessage req.title req.ipfsCid)
            (req.signature.getD "") req.walletAddress = false
      · rw [if_pos hc]
        exact ⟨by simp [hc], fun hn => absurd hc hn⟩
      · rw [if_neg hc, if_neg hcnt]
        exact ⟨by simp [hc], fun _ => ⟨_, rfl⟩⟩

/-- A request supplying no signature at all. -/
def c6Request : PaperRequest :=
  { title := "T2", abstract := "A2", ipfsCid := "Qm9", metadataHash := none,
    tags := none, walletAddress := "0xBB", signature := none }

/-- Witness for C6: with no signature supplied, verification is skipped
and the submission is created even under an always-failing recovery
oracle. -/
theorem C6_signature_gate_witness :
    ∃ paper, (postPapers badRecover emptyStorage c6Request "bob" 0).1 =
      PapersResponse.created paper := by
  have h := C6_signature_gate badRecover emptyStorage c6Request "bob" 0
    (by decide) (by decide) (by decide)
  exact h.2 (by decide)

/-! ## C9 — the review-award-to-paper heuristic -/

/-- C9: when the reason text contains `"review"` and the recipient has at
least one review, `awardTokens` bumps the cached token count of the paper
targeted by the recipient's most recently created review (the last one in
insertion order), leaving every other paper untouched; when the reason is
not review-related, no paper changes at all. -/
theorem C9_award_review_heuristic (s : Storage) (uid : Nat) (amt : Int)
    (reason : String) (now : Nat) :
    (∀ pid p, jsIncludes reason "review" = true →
      ((s.reviews.filter (fun r => r.reviewerId == uid)).map
        (fun r => r.paperId)).getLast? = some pid →
      getPaper s pid = some p →
      getPaper (awardTokens s uid amt reason now).2 pid =
        some { p with tokenCount := p.tokenCount + amt } ∧
      (∀ qid, qid ≠ pid →
        getPaper (awardTokens s uid amt reason now).2 qid = getPaper s qid)) ∧
    (jsIncludes reason "review" = false →
      ((awardTokens s uid amt reason now).2).papers = s.papers) := by
  constructor
  · intro pid p hrev hlast hp
    simp only [awardTokens, hrev, if_true]
    rw [hlast]
    constructor
    · exact find?_map_update_self Paper.id
        (fun q => { q with tokenCount := q.tokenCount + amt })
        (fun _ => rfl) pid s.papers p hp
    · intro qid hq
      exact find?_map_update_ne Paper.id
        (fun q => { q with tokenCount := q.tokenCount + amt })
        (fun _ => rfl) pid qid hq s.papers
  · intro hrev
    exact awardTokens_papers_of_not_review s uid amt reason now hrev

/-- Witness for C9: a peer-review award to the reviewer of `demoPaper`
bumps that paper's token count by the awarded amount. -/
theorem C9_award_review_heuristic_witness :
    jsIncludes "Submitted peer review" "review" = true ∧
    getPaper (awardTokens demoStorageOneReview 2 5
        "Submitted peer review" 9).2 1 =
      some { demoPaper with tokenCount := demoPaper.tokenCount + 5 } := by
  have h := C9_award_review_heuristic demoStorageOneReview 2 5
    "Submitted peer review" 9
  exact ⟨by decide, (h.1 1 demoPaper (by decide) (by decide) (by decide)).1⟩

/-! ## C10 — the abstract pass can award twice on one run -/

/-- C10: on a multi-chunk run, the preliminary abstract-only pass goes
through `analyzeSingleChunk` with the full promotion side effects, so if
the abstract-only rating is ≥ 7 and the sampled rating is ≥ 6 the author
receives two independent 10-token awards — 20 tokens from a single
analysis run — and the paper ends verified. -/
theorem C10_double_award (oracle : String → Analysis) (s : Storage)
    (pid : Nat) (title content abstract : String) (now : Nat) (p : Paper)
    (u : User)
    (hmulti : (splitTextIntoChunks content MAX_CHUNK_SIZE).length ≠ 1)
    (h7 : (oracle (singleChunkMessage title
      (abstractOnlyContent abstract))).qualityRating ≥ 7)
    (h6 : (oracle (representativeSample title abstract
      (splitTextIntoChunks content MAX_CHUNK_SIZE))).qualityRating ≥ 6)
    (hp : getPaper s pid = some p) (hu : getUser s p.authorId = some u) :
    (∃ q, getPaper (analyzePaperContent oracle s pid title content abstract now).2
        pid = some q ∧ q.status = "verified" ∧ q.aiVerified = true) ∧
    ((analyzePaperContent oracle s pid title content abstract now).2).tokens =
      s.tokens ++
        [{ id := s.tokenIdCounter, userId := p.authorId, amount := 10,
           reason := hqReason, txHash := none, createdAt := now },
         { id := s.tokenIdCounter + 1, userId := p.authorId, amount := 10,
           reason := hqReason, txHash := none, createdAt := now }] ∧
    Option.map User.tokenBalance
      (getUser (analyzePaperContent oracle s pid title content abstract now).2
        p.authorId) =
      some (u.tokenBalance + 20) := by
  rw [analyzePaperContent_snd_multi _ _ _ _ _ _ _ hmulti,
    analyzeSingleChunk_snd, if_pos h7, if_pos h6]
  have h1 := promoteVerified_spec s pid now p u hp hu
  have h2 := promoteVerified_spec (promoteVerified s pid now) pid now
    { p with status := "verified", aiVerified := true }
    { u with tokenBalance := u.tokenBalance + 10 } h1.1 h1.2.2.1
  obtain ⟨h2a, h2b, h2c, h2d⟩ := h2
  dsimp only at h2a h2b h2c h2d
  refine ⟨⟨_, h2a, rfl, rfl⟩, ?_, ?_⟩
  · rw [h2b, h1.2.1, h1.2.2.2]
    simp [List.append_assoc]
  · rw [h2c]
    simp only [Option.map]
    congr 1
    dsimp only
    omega

/-- Witness for C10: the empty body splits into 0 chunks, forcing the
multi-chunk path; the constant-8 oracle passes both thresholds and the
demo author nets 20 tokens. -/
theorem C10_double_award_witness :
    Option.map User.tokenBalance
      (getUser (analyzePaperContent demoOracle demoStorage 1 "T" "" "A" 0).2 1) =
      some (demoUser.tokenBalance + 20) := by
  have h := C10_double_award demoOracle demoStorage 1 "T" "" "A" 0 demoPaper
    demoUser (by decide) (by decide) (by decide) (by decide) (by decide)
  exact h.2.2

/-! ## C4 — chunking: reconstruction and the size bound -/

/-- The chunk accumulator only ever grows at the back. -/
lemma chunkGo_acc (maxSize : Nat) :
    ∀ (ps : List (List Char)) (chunks : List (List Char)) (curr : List Char),
      chunkGo maxSize ps chunks curr =
        chunks ++ chunkGo maxSize ps [] curr := by
  intro ps
  induction ps with
  | nil =>
      intro chunks curr
      simp only [chunkGo]
      split <;> simp
  | cons p ps ih =>
      intro chunks curr
      simp only [chunkGo]
      split
      · rw [ih (chunks ++ [curr]) p, ih ([] ++ [curr]) p]
        simp [List.append_assoc]
      · exact ih chunks _

/-- A run started on a non-empty current chunk produces at least one
chunk. -/
lemma chunkGo_ne_nil (maxSize : Nat) :
    ∀ (ps : List (List Char)) (curr : List Char), curr ≠ [] →
      chunkGo maxSize ps [] curr ≠ [] := by
  intro ps
  induction ps with
  | nil =>
      intro curr h
      simp only [chunkGo]
      rw [if_pos h]
      simp
  | cons p ps ih =>
      intro curr h
      simp only [chunkGo]
      split
      · rw [chunkGo_acc]
        simp
      · apply ih
        intro hcontra
        rw [List.append_eq_nil, List.append_eq_nil] at hcontra
        exact h hcontra.1.1

/-- Splitting off the first element of a join with at least two
components. -/
lemma joinChunks_cons (c : List Char) (l : List (List Char)) (h : l ≠ []) :
    joinChunks (c :: l) = c ++ ['\n', '\n'] ++ joinChunks l := by
  cases l with
  | nil => exact absurd rfl h
  | cons d ds => rfl

/-- Reconstruction: as long as every pending paragraph is non-empty and
the current chunk is non-empty, re-joining the produced chunks with
`"\n\n"` equals re-joining the pending paragraphs behind the current
chunk. -/
lemma chunkGo_join (maxSize : Nat) :
    ∀ (ps : List (List Char)) (curr : List Char), curr ≠ [] →
      (∀ p ∈ ps, p ≠ []) →
      joinChunks (chunkGo maxSize ps [] curr) = joinChunks (curr :: ps) := by
  intro ps
  induction ps with
  | nil =>
      intro curr h _
      simp only [chunkGo]
      rw [if_pos h, List.nil_append]
  | cons p ps ih =>
      intro curr h hps
      have hp : p ≠ [] := hps p (List.mem_cons_self _ _)
      have hps' : ∀ q ∈ ps, q ≠ [] := fun q hq => hps q (List.mem_cons_of_mem _ hq)
      simp only [chunkGo]
      rw [if_pos h]
      split
      · rw [chunkGo_acc, List.nil_append, List.singleton_append,
          joinChunks_cons curr _ (chunkGo_ne_nil maxSize ps p hp),
          ih p hp hps', joinChunks_cons curr (p :: ps) (by simp)]
      · have hbig : curr ++ ['\n', '\n'] ++ p ≠ [] := by
          intro hcontra
          rw [List.append_eq_nil, List.append_eq_nil] at hcontra
          exact h hcontra.1.1
        rw [ih _ hbig hps']
        cases ps with
        | nil => simp [joinChunks, List.append_assoc]
        | cons q qs =>
            rw [joinChunks_cons _ (q :: qs) (by simp),
              joinChunks_cons curr (p :: q :: qs) (by simp),
              joinChunks_cons p (q :: qs) (by simp)]
            simp [List.append_assoc]

/-- Every produced chunk is either within `maxSize + 2` characters or is
one of the paragraphs verbatim. -/
lemma chunkGo_size (maxSize : Nat) (P : List (List Char)) :
    ∀ (ps : List (List Char)) (chunks : List (List Char)) (curr : List Char),
      (∀ c ∈ chunks, c.length ≤ maxSize + 2 ∨ c ∈ P) →
      (curr.length ≤ maxSize + 2 ∨ curr ∈ P) →
      (∀ p ∈ ps, p ∈ P) →
      ∀ c ∈ chunkGo maxSize ps chunks curr,
        c.length ≤ maxSize + 2 ∨ c ∈ P := by
  intro ps
  induction ps with
  | nil =>
      intro chunks curr hchunks hcurr _ c hc
      simp only [chunkGo] at hc
      split at hc
      · rcases List.mem_append.mp hc with hmem | hmem
        · exact hchunks c hmem
        · rw [List.mem_singleton] at hmem
          subst hmem
          exact hcurr
      · exact hchunks c hc
  | cons p ps ih =>
      intro chunks curr hchunks hcurr hps c hc
      have hpP : p ∈ P := hps p (List.mem_cons_self _ _)
      have hps' : ∀ q ∈ ps, q ∈ P := fun q hq => hps q (List.mem_cons_of_mem _ hq)
      simp only [chunkGo] at hc
      split at hc
      case isTrue hcond =>
        refine ih (chunks ++ [curr]) p ?_ (Or.inr hpP) hps' c hc
        intro d hd
        rcases List.mem_append.mp hd with hmem | hmem
        · exact hchunks d hmem
        · rw [List.mem_singleton] at hmem
          subst hmem
          exact hcurr
      case isFalse hcond =>
        refine ih chunks _ hchunks ?_ hps' c hc
        by_cases h0 : curr.length = 0
        · have hcnil : curr = [] := List.length_eq_zero.mp h0
          subst hcnil
          simpa using Or.inr hpP
        · have hlen : curr.length + p.length ≤ maxSize := by
            by_contra hgt
            exact hcond ⟨by omega, by omega⟩
          left
          have hsep : (if curr ≠ [] then ['\n', '\n'] else []).length ≤ 2 := by
            split <;> simp
          rw [List.length_append, List.length_append]
          omega

/-- C4 (amended): for every text whose paragraph decomposition is exact —
all paragraphs non-empty and the separators exactly two newlines, i.e.
re-joining the split paragraphs with `"\n\n"` gives back the text —
joining the produced chunks with `"\n\n"` reproduces the text exactly;
and every produced chunk either is a single paragraph verbatim (possibly
oversized) or has length at most `maxSize + 2` (the `"\n\n"` separator
the size check ignores). -/
theorem C4_chunking_amended (text : String) (maxSize : Nat)
    (hsep : joinChunks (splitParas text.data) = text.data)
    (hne : ∀ p ∈ splitParas text.data, p ≠ []) :
    joinChunks ((splitTextIntoChunks text maxSize).map String.data) =
      text.data ∧
    ∀ c ∈ splitTextIntoChunks text maxSize,
      c.length ≤ maxSize + 2 ∨ c.data ∈ splitParas text.data := by
  have hmaps : (splitTextIntoChunks text maxSize).map String.data =
      chunkGo maxSize (splitParas text.data) [] [] := by
    unfold splitTextIntoChunks
    rw [List.map_map]
    exact List.map_id _
  constructor
  · rw [hmaps]
    cases hps : splitParas text.data with
    | nil =>
        rw [← hsep, hps]
        rfl
    | cons p ps =>
        have hp : p ≠ [] := hne p (by rw [hps]; exact List.mem_cons_self _ _)
        have hps' : ∀ q ∈ ps, q ≠ [] := fun q hq =>
          hne q (by rw [hps]; exact List.mem_cons_of_mem _ hq)
        have hstep : chunkGo maxSize (p :: ps) [] [] =
            chunkGo maxSize ps [] p := by
          simp [chunkGo]
        rw [hstep, chunkGo_join maxSize ps p hp hps', ← hps]
        exact hsep
  · intro c hc
    have hmem : c.data ∈ chunkGo maxSize (splitParas text.data) [] [] := by
      rw [← hmaps]
      exact List.mem_map_of_mem String.data hc
    have h := chunkGo_size maxSize (splitParas text.data)
      (splitParas text.data) [] [] (by simp) (Or.inl (by simp))
      (fun p hp => hp) c.data hmem
    simpa using h

/-- Counterexample for C4 as stated: `"a\n\n\nb"` (three-newline
separator) chunks to the single chunk `"a\n\nb"`, so no joining of the
chunks can reproduce the input; and `"aaaaa\n\nbbbbb"` with limit 10
produces one 12-character chunk made of two paragraphs — not a single
oversized paragraph — exceeding the configured maximum. -/
theorem C4_counterexample_chunking :
    splitTextIntoChunks "a\n\n\nb" 10 = ["a\n\nb"] ∧
    joinChunks ((splitTextIntoChunks "a\n\n\nb" 10).map String.data) ≠
      ("a\n\n\nb" : String).data ∧
    splitTextIntoChunks "aaaaa\n\nbbbbb" 10 = ["aaaaa\n\nbbbbb"] ∧
    ("aaaaa\n\nbbbbb" : String).length = 12 ∧
    (splitParas ("aaaaa\n\nbbbbb" : String).data).length = 2 := by
  refine ⟨by decide, by decide, by decide, by decide, by decide⟩

/-- Witness for C4 (amended): a text with exact `"\n\n"` separators is
reproduced by joining the chunks produced under limit 5. -/
theorem C4_chunking_amended_witness :
    joinChunks (splitParas ("aa\n\nbb\n\ncc" : String).data) =
      ("aa\n\nbb\n\ncc" : String).data ∧
    joinChunks ((splitTextIntoChunks "aa\n\nbb\n\ncc" 5).map String.data) =
      ("aa\n\nbb\n\ncc" : String).data := by
  have h := C4_chunking_amended "aa\n\nbb\n\ncc" 5 (by decide) (by decide)
  exact ⟨by decide, h.1⟩

/-! ## C8 — cached balances versus the token ledger -/

/-- Remaining field lemmas for the paper-only mutations. -/
lemma updatePaperStatus_userIdCounter (s : Storage) (pid : Nat) (st : String) :
    ((updatePaperStatus s pid st).2).userIdCounter = s.userIdCounter := by
  unfold updatePaperStatus; split <;> rfl

lemma updatePaperAIVerified_userIdCounter (s : Storage) (pid : Nat) (v : Bool) :
    ((updatePaperAIVerified s pid v).2).userIdCounter = s.userIdCounter := by
  unfold updatePaperAIVerified; split <;> rfl

lemma updatePaperAIAnalysis_users (s : Storage) (pid : Nat)
    (a : Option Analysis) :
    ((updatePaperAIAnalysis s pid a).2).users = s.users := by
  unfold updatePaperAIAnalysis; split <;> rfl

lemma updatePaperAIAnalysis_tokens (s : Storage) (pid : Nat)
    (a : Option Analysis) :
    ((updatePaperAIAnalysis s pid a).2).tokens = s.tokens := by
  unfold updatePaperAIAnalysis; split <;> rfl

lemma updatePaperAIAnalysis_userIdCounter (s : Storage) (pid : Nat)
    (a : Option Analysis) :
    ((updatePaperAIAnalysis s pid a).2).userIdCounter = s.userIdCounter := by
  unfold updatePaperAIAnalysis; split <;> rfl

lemma incrementPaperViews_users (s : Storage) (pid : Nat) :
    ((incrementPaperViews s pid).2).users = s.users := by
  unfold incrementPaperViews; split <;> rfl

lemma incrementPaperViews_tokens (s : Storage) (pid : Nat) :
    ((incrementPaperViews s pid).2).tokens = s.tokens := by
  unfold incrementPaperViews; split <;> rfl

lemma incrementPaperViews_userIdCounter (s : Storage) (pid : Nat) :
    ((incrementPaperViews s pid).2).userIdCounter = s.userIdCounter := by
  unfold incrementPaperViews; split <;> rfl

lemma createReview_users (s : Storage) (ir : InsertReview) (now : Nat) :
    ((createReview s ir now).2).users = s.users := by
  simp only [createReview]
  split
  · split <;> rfl
  · rfl

lemma createReview_tokens (s : Storage) (ir : InsertReview) (now : Nat) :
    ((createReview s ir now).2).tokens = s.tokens := by
  simp only [createReview]
  split
  · split <;> rfl
  · rfl

lemma createReview_userIdCounter (s : Storage) (ir : InsertReview) (now : Nat) :
    ((createReview s ir now).2).userIdCounter = s.userIdCounter := by
  simp only [createReview]
  split
  · split <;> rfl
  · rfl

/-- The balance/ledger invariant: user ids stay below the counter, every
ledger entry names an existing user, and every cached balance is the
ledger sum for that user. -/
def BalInv (s : Storage) : Prop :=
  (∀ u ∈ s.users, u.id < s.userIdCounter) ∧
  (∀ t ∈ s.tokens, ∃ u ∈ s.users, u.id = t.userId) ∧
  (∀ u ∈ s.users, u.tokenBalance = tokenSum s u.id)

/-- States reachable from the empty repository through the storage
operations the way the routes drive them: papers are created for existing
authors and token awards target existing recipients. -/
inductive Reachable : Storage → Prop where
  | init : Reachable emptyStorage
  | user (s : Storage) (iu : InsertUser) :
      Reachable s → Reachable (createUser s iu).2
  | paper (s : Storage) (ip : InsertPaper) (now : Nat) :
      Reachable s → (getUser s ip.authorId).isSome = true →
      Reachable (createPaper s ip now).2
  | review (s : Storage) (ir : InsertReview) (now : Nat) :
      Reachable s → Reachable (createReview s ir now).2
  | award (s : Storage) (uid : Nat) (amt : Int) (r : String) (now : Nat) :
      Reachable s → (getUser s uid).isSome = true →
      Reachable (awardTokens s uid amt r now).2
  | status (s : Storage) (pid : Nat) (st : String) :
      Reachable s → Reachable (updatePaperStatus s pid st).2
  | aiVerified (s : Storage) (pid : Nat) (v : Bool) :
      Reachable s → Reachable (updatePaperAIVerified s pid v).2
  | aiAnalysis (s : Storage) (pid : Nat) (a : Option Analysis) :
      Reachable s → Reachable (updatePaperAIAnalysis s pid a).2
  | views (s : Storage) (pid : Nat) :
      Reachable s → Reachable (incrementPaperViews s pid).2

/-- The invariant only reads users, tokens and the user counter. -/
lemma balInv_congr (s s' : Storage) (hu : s'.users = s.users)
    (ht : s'.tokens = s.tokens) (hc : s'.userIdCounter = s.userIdCounter)
    (h : BalInv s) : BalInv s' := by
  obtain ⟨h1, h2, h3⟩ := h
  refine ⟨?_, ?_, ?_⟩
  · intro u hmem
    rw [hc]
    exact h1 u (hu ▸ hmem)
  · intro t htm
    rw [hu]
    exact h2 t (ht ▸ htm)
  · intro u hmem
    have hsum : tokenSum s' u.id = tokenSum s u.id := by
      unfold tokenSum
      rw [ht]
    rw [hsum]
    exact h3 u (hu ▸ hmem)

/-- A user no ledger entry names has ledger sum 0. -/
lemma tokenSum_eq_zero (s : Storage) (k : Nat)
    (h : ∀ t ∈ s.tokens, t.userId ≠ k) : tokenSum s k = 0 := by
  unfold tokenSum
  have hfil : s.tokens.filter (fun t => t.userId == k) = [] := by
    rw [List.filter_eq_nil_iff]
    intro t ht
    simp [h t ht]
  rw [hfil]
  rfl

/-- Appending one ledger entry shifts exactly the recipient's sum. -/
lemma tokenSum_award (s : Storage) (uid : Nat) (amt : Int) (r : String)
    (now k : Nat) :
    tokenSum (awardTokens s uid amt r now).2 k =
      tokenSum s k + (if uid = k then amt else 0) := by
  unfold tokenSum
  rw [awardTokens_tokens, List.filter_append, List.map_append,
    List.sum_append]
  congr 1
  by_cases hk : uid = k
  · subst hk
    simp
  · simp [hk]

/-- `awardTokens` to an existing recipient preserves the invariant. -/
lemma balInv_awardTokens (s : Storage) (uid : Nat) (amt : Int) (r : String)
    (now : Nat) (hex : (getUser s uid).isSome = true) (h : BalInv s) :
    BalInv (awardTokens s uid amt r now).2 := by
  obtain ⟨h1, h2, h3⟩ := h
  have hidupd : ∀ v : User,
      (if v.id = uid then { v with tokenBalance := v.tokenBalance + amt }
       else v).id = v.id := by
    intro v
    split <;> rfl
  refine ⟨?_, ?_, ?_⟩
  · intro u hmem
    rw [awardTokens_users] at hmem
    obtain ⟨v, hv, hequ⟩ := List.mem_map.mp hmem
    rw [awardTokens_userIdCounter, ← hequ, hidupd]
    exact h1 v hv
  · intro t htm
    rw [awardTokens_tokens] at htm
    rcases List.mem_append.mp htm with hmem | hmem
    · obtain ⟨u, hu, hid⟩ := h2 t hmem
      refine ⟨(if u.id = uid then { u with tokenBalance := u.tokenBalance + amt }
        else u), ?_, ?_⟩
      · rw [awardTokens_users]
        exact List.mem_map_of_mem _ hu
      · rw [hidupd]
        exact hid
    · rw [List.mem_singleton] at hmem
      subst hmem
      obtain ⟨u0, hu0⟩ := Option.isSome_iff_exists.mp hex
      have hu0' : s.users.find? (fun v => v.id == uid) = some u0 := hu0
      have hmem0 : u0 ∈ s.users := List.mem_of_find?_eq_some hu0'
      have hid0 : u0.id = uid := by simpa using List.find?_some hu0'
      refine ⟨(if u0.id = uid then { u0 with tokenBalance := u0.tokenBalance + amt }
        else u0), ?_, ?_⟩
      · rw [awardTokens_users]
        exact List.mem_map_of_mem _ hmem0
      · rw [hidupd]
        exact hid0
  · intro u hmem
    rw [awardTokens_users] at hmem
    obtain ⟨v, hv, hequ⟩ := List.mem_map.mp hmem
    rw [← hequ, hidupd, tokenSum_award]
    by_cases hvid : v.id = uid
    · rw [if_pos hvid, if_pos hvid.symm]
      have := h3 v hv
      dsimp only
      omega
    · rw [if_neg hvid, if_neg (fun hcontra => hvid hcontra.symm)]
      have := h3 v hv
      omega

/-- `createUser` preserves the invariant: the fresh user starts at
balance 0 and no ledger entry can name the fresh id. -/
lemma balInv_createUser (s : Storage) (iu : InsertUser) (h : BalInv s) :
    BalInv (createUser s iu).2 := by
  obtain ⟨h1, h2, h3⟩ := h
  refine ⟨?_, ?_, ?_⟩
  · intro u hmem
    rcases List.mem_append.mp hmem with hmem | hmem
    · have := h1 u hmem
      show u.id < s.userIdCounter + 1
      omega
    · rw [List.mem_singleton] at hmem
      subst hmem
      show s.userIdCounter < s.userIdCounter + 1
      omega
  · intro t htm
    obtain ⟨u, hu, hid⟩ := h2 t htm
    exact ⟨u, List.mem_append_left _ hu, hid⟩
  · intro u hmem
    have hsum : ∀ k, tokenSum (createUser s iu).2 k = tokenSum s k := by
      intro k
      unfold tokenSum
      rfl
    rcases List.mem_append.mp hmem with hmem | hmem
    · rw [hsum]
      exact h3 u hmem
    · rw [List.mem_singleton] at hmem
      subst hmem
      rw [hsum]
      have hnone : ∀ t ∈ s.tokens, t.userId ≠ s.userIdCounter := by
        intro t ht
        obtain ⟨u, hu, hid⟩ := h2 t ht
        have := h1 u hu
        omega
      rw [tokenSum_eq_zero s _ hnone]

/-- Every reachable state satisfies the invariant. -/
lemma balInv_of_reachable (s : Storage) (h : Reachable s) : BalInv s := by
  induction h with
  | init =>
      refine ⟨?_, ?_, ?_⟩ <;> intro x hx <;> simp [emptyStorage] at hx
  | user s iu _ ih => exact balInv_createUser s iu ih
  | paper s ip now _ hex ih =>
      rw [createPaper_snd]
      refine balInv_awardTokens _ ip.authorId 3 "Paper submission" now hex ?_
      exact balInv_congr s _ rfl rfl rfl ih
  | review s ir now _ ih =>
      exact balInv_congr s _ (createReview_users s ir now)
        (createReview_tokens s ir now) (createReview_userIdCounter s ir now) ih
  | award s uid amt r now _ hex ih => exact balInv_awardTokens s uid amt r now hex ih
  | status s pid st _ ih =>
      exact balInv_congr s _ (updatePaperStatus_users s pid st)
        (updatePaperStatus_tokens s pid st)
        (updatePaperStatus_userIdCounter s pid st) ih
  | aiVerified s pid v _ ih =>
      exact balInv_congr s _ (updatePaperAIVerified_users s pid v)
        (updatePaperAIVerified_tokens s pid v)
        (updatePaperAIVerified_userIdCounter s pid v) ih
  | aiAnalysis s pid a _ ih =>
      exact balInv_congr s _ (updatePaperAIAnalysis_users s pid a)
        (updatePaperAIAnalysis_tokens s pid a)
        (updatePaperAIAnalysis_userIdCounter s pid a) ih
  | views s pid _ ih =>
      exact balInv_congr s _ (incrementPaperViews_users s pid)
        (incrementPaperViews_tokens s pid)
        (incrementPaperViews_userIdCounter s pid) ih

/-- Counterexample for C8 as stated: in the seeded initial state,
`researcher_1` carries a cached balance of 45 while the token ledger is
empty, so the cached balance is not the ledger sum. -/
theorem C8_counterexample_seeded_state :
    seedUser1 ∈ seededStorage.users ∧
    seedUser1.tokenBalance = 45 ∧
    tokenSum seededStorage seedUser1.id = 0 ∧
    seededStorage.tokens = [] := by
  exact ⟨List.mem_cons_self _ _, rfl, rfl, rfl⟩

/-- C8 (amended): in every state reachable from the empty repository via
the storage operations (papers created for existing authors, awards to
existing recipients, as the routes guarantee), every user's cached
`tokenBalance` equals the sum of the ledger amounts recorded for that
user; the seeded demo state itself violates this. -/
theorem C8_balance_is_ledger_sum (s : Storage) (h : Reachable s) :
    ∀ u ∈ s.users, u.tokenBalance = tokenSum s u.id :=
  (balInv_of_reachable s h).2.2

/-- Carol's insert payload for the C8 witness run. -/
def c8InsertUser : InsertUser :=
  { username := "carol", password := "wallet_auth",
    walletAddress := some "0xCC", institution := none, bio := none,
    profileImage := none }

/-- A concrete reachable state: create carol, then award her 5 tokens. -/
def c8State : Storage :=
  (awardTokens (createUser emptyStorage c8InsertUser).2 1 5 "signup bonus" 0).2

/-- Carol as she stands in `c8State`. -/
def c8User : User :=
  { id := 1, username := "carol", password := "wallet_auth",
    walletAddress := some "0xCC", institution := none, bio := none,
    profileImage := none, tokenBalance := 5 }

/-- Witness for C8 (amended): in the concrete reachable state, carol's
cached balance equals her ledger sum. -/
theorem C8_balance_is_ledger_sum_witness :
    c8User ∈ c8State.users ∧
    c8User.tokenBalance = tokenSum c8State c8User.id := by
  have hr : Reachable c8State :=
    Reachable.award _ 1 5 "signup bonus" 0
      (Reachable.user _ c8InsertUser Reachable.init) (by decide)
  exact ⟨by decide, C8_balance_is_ledger_sum c8State hr c8User (by decide)⟩

end DeSci
